import Mathlib

/-!
Verification of the frappebr transfer subsystem: a shallow embedding of
`src/core/transfer_manager.py` and the backup-set grouping of
`src/core/backup_manager.py`, together with theorems settling the spec's
claims about them.

Modelling conventions:
* Python `int` is `Int` (or `Nat` where the source value is a size or count);
  Python `float` sizes are `ℚ` (exact arithmetic stands in for IEEE floats);
  `datetime` values are `Nat` timestamps compared by `≤`.
* Filesystem and network effects are passed in as explicit environment
  parameters (does the local file exist, its size, the remote stat result,
  the outcome of each transfer attempt / chunk read), and the functions
  return the resulting local-file state alongside the Python return value
  or raised exception.
* Python string operations (`in`, `endswith`, `re.match` on the timestamp
  pattern, `os.path` helpers) are modelled on `List Char` so that they
  evaluate by kernel reduction.
-/

namespace FrappeBR

/-! ### String helpers (List Char based models of Python string operations) -/

/-- Does the first list occur at the head of the second?  Models Python
`str.startswith` restricted to the character lists involved. -/
def startsWithChars : List Char → List Char → Bool
  | [], _ => true
  | _ :: _, [] => false
  | a :: as, b :: bs => a == b && startsWithChars as bs

/-- Does the first list occur contiguously anywhere inside the second?
Models the Python substring test `needle in hay`. -/
def containsChars : List Char → List Char → Bool
  | needle, [] => startsWithChars needle []
  | needle, c :: rest => startsWithChars needle (c :: rest) || containsChars needle rest

/-- Python `needle in hay` on strings. -/
def containsSub (hay needle : String) : Bool :=
  containsChars needle.toList hay.toList

/-- Python `s.endswith(suf)`. -/
def strEndsWith (s suf : String) : Bool :=
  startsWithChars suf.toList.reverse s.toList.reverse

/-- Python `os.path.dirname` (simplified to the slash-separated common case,
which is how `upload_backup` uses it). -/
def dirname (s : String) : String :=
  let parts := s.splitOn "/"
  if parts.length ≤ 1 then "" else String.intercalate "/" parts.dropLast

/-- Python `pathlib.Path(s).name`. -/
def basename (s : String) : String :=
  (s.splitOn "/").getLastD s

/-- The leading timestamp token match `re.match(r'(\d{8}_\d{6})', filename)`
used by both grouping implementations: eight digits, an underscore, six
digits, at the very start of the filename (`\d` modelled as ASCII digits). -/
def timestampToken (s : String) : Option String :=
  let cs := s.toList
  let pre := cs.take 15
  if pre.length = 15
      ∧ (pre.take 8).all Char.isDigit
      ∧ pre.getD 8 ' ' = '_'
      ∧ (pre.drop 9).all Char.isDigit
  then some (String.mk pre) else none

/-- Python `int()` applied to an exact rational: truncation toward zero. -/
def ratTrunc (q : ℚ) : Int :=
  Int.tdiv q.num q.den

/-! ### Data model (src/models/config.py) -/

/-- `BackupInfo` from `src/models/config.py` (`size_mb : float` becomes `ℚ`,
`created_at : datetime` becomes a `Nat` timestamp). -/
structure BackupInfo where
  filename : String
  filepath : String
  site_name : String
  backup_type : String
  created_at : Nat
  size_mb : ℚ
  compressed : Bool
  md5_hash : Option String
deriving Repr, DecidableEq

/-- `BackupSet` from `src/models/config.py`. -/
structure BackupSet where
  timestamp : String
  site_name : String
  backup_type : String
  created_at : Nat
  total_size_mb : ℚ
  files : List BackupInfo
deriving Repr, DecidableEq

/-! ### Exceptions -/

/-- A raised Python exception: either the package's own `TransferError`
or any other (I/O, paramiko, ...) exception. -/
inductive PyErr where
  | transfer (msg : String)
  | other (msg : String)
deriving Repr, DecidableEq

/-- Python `str(e)` on a caught exception. -/
def errMsg : PyErr → String
  | .transfer m => m
  | .other m => m

/-! ### TransferProgress (src/core/transfer_manager.py, lines 20-85) -/

/-- The mutable state of a `TransferProgress` object: `total_size` and
`transferred` counters, whether a `callback` observer was registered, and
the `cancelled` event flag. (`start_time` is replaced by passing the
elapsed seconds into the derived properties explicitly.) -/
structure ProgressState where
  total_size : Int
  transferred : Int
  hasCallback : Bool
  cancelled : Bool
deriving Repr, DecidableEq

/-- Result of one `update` call: the new state and how many times the
observer callback was invoked during the call. -/
structure UpdateOut where
  state : ProgressState
  callbackCalls : Nat
deriving Repr, DecidableEq

/-- `TransferProgress.update`: add the delta to `transferred`, then invoke
the callback iff one is registered and the transfer is not cancelled. -/
def TransferProgress.update (s : ProgressState) (bytes_transferred : Int) : UpdateOut :=
  let s2 := { s with transferred := s.transferred + bytes_transferred }
  { state := s2, callbackCalls := if s2.hasCallback && !s2.cancelled then 1 else 0 }

/-- `TransferProgress.cancel`: set the cancelled event. -/
def TransferProgress.cancel (s : ProgressState) : ProgressState :=
  { s with cancelled := true }

/-- A call against a `TransferProgress` object. -/
inductive ProgressOp where
  | update (bytes : Int)
  | cancel
deriving Repr, DecidableEq

/-- Run a sequence of calls; return the final state and the total number of
callback invocations observed. -/
def runOps : ProgressState → List ProgressOp → ProgressState × Nat
  | s, [] => (s, 0)
  | s, ProgressOp.update b :: rest =>
    let u := TransferProgress.update s b
    let r := runOps u.state rest
    (r.1, u.callbackCalls + r.2)
  | s, ProgressOp.cancel :: rest => runOps (TransferProgress.cancel s) rest

/-- Sum of the deltas of the `update` calls in a sequence. -/
def sumUpdates : List ProgressOp → Int
  | [] => 0
  | ProgressOp.update b :: rest => b + sumUpdates rest
  | ProgressOp.cancel :: rest => sumUpdates rest

/-- `TransferProgress.percentage`: `0.0` for a zero total, otherwise
`min(100.0, transferred / total_size * 100.0)`. -/
def TransferProgress.percentage (s : ProgressState) : ℚ :=
  if s.total_size = 0 then 0
  else min 100 ((s.transferred : ℚ) / (s.total_size : ℚ) * 100)

/-- `TransferProgress.eta_seconds` with the elapsed time passed explicitly:
`None` when nothing was transferred, otherwise `int(remaining / rate)` with
`rate = transferred / elapsed`, or `None` when that rate is zero. -/
def TransferProgress.eta_seconds (s : ProgressState) (elapsed : ℚ) : Option Int :=
  if s.transferred = 0 then none
  else
    let rate : ℚ := (s.transferred : ℚ) / elapsed
    if rate = 0 then none
    else some (ratTrunc (((s.total_size : ℚ) - (s.transferred : ℚ)) / rate))

/-! ### Claim C8 -/

/-- Claim C8: the `percentage` property equals `min 100 (transferred / total * 100)`
(under exact-rational semantics, with division by zero equal to zero), is `0`
whenever `total_size = 0`, and `eta_seconds` is `none` whenever `transferred`
is zero or the computed rate `transferred / elapsed` is zero. -/
theorem progress_percentage_eta_spec (s : ProgressState) (elapsed : ℚ) :
    TransferProgress.percentage s
        = min 100 ((s.transferred : ℚ) / (s.total_size : ℚ) * 100)
    ∧ (s.total_size = 0 → TransferProgress.percentage s = 0)
    ∧ ((s.transferred = 0 ∨ (s.transferred : ℚ) / elapsed = 0) →
        TransferProgress.eta_seconds s elapsed = none) := by
  refine ⟨?_, ?_, ?_⟩
  · by_cases h : s.total_size = 0
    · rw [TransferProgress.percentage, if_pos h, h]
      rw [Int.cast_zero, div_zero, zero_mul]
      exact (min_eq_right (by norm_num)).symm
    · simp [TransferProgress.percentage, h]
  · intro h
    simp [TransferProgress.percentage, h]
  · intro h
    by_cases ht : s.transferred = 0
    · simp [TransferProgress.eta_seconds, ht]
    · rcases h with h | h
      · exact absurd h ht
      · simp [TransferProgress.eta_seconds, ht, h]

/-- Witness for C8 at a concrete zero-byte transfer state. -/
theorem progress_percentage_eta_witness :
    TransferProgress.percentage ⟨0, 0, false, false⟩ = 0
    ∧ TransferProgress.eta_seconds ⟨0, 0, false, false⟩ 1 = none :=
  ⟨(progress_percentage_eta_spec ⟨0, 0, false, false⟩ 1).2.1 rfl,
   (progress_percentage_eta_spec ⟨0, 0, false, false⟩ 1).2.2 (Or.inl rfl)⟩

/-! ### Claim C10 -/

/-- Claim C10: once the transfer is cancelled, no later `update` invokes the
observer callback, while `transferred` still grows by the delta of each
update; and before cancellation each `update` with a registered callback
invokes it exactly once (and still adds its delta). -/
theorem progress_cancel_callback_spec :
    (∀ (s : ProgressState) (ops : List ProgressOp), s.cancelled = true →
        (runOps s ops).2 = 0
        ∧ (runOps s ops).1.transferred = s.transferred + sumUpdates ops)
    ∧ (∀ s : ProgressState, (TransferProgress.cancel s).cancelled = true)
    ∧ (∀ (s : ProgressState) (b : Int), s.cancelled = false → s.hasCallback = true →
        (TransferProgress.update s b).callbackCalls = 1
        ∧ (TransferProgress.update s b).state.transferred = s.transferred + b) := by
  refine ⟨?_, fun s => rfl, ?_⟩
  · intro s ops h
    induction ops generalizing s with
    | nil => simp [runOps, sumUpdates]
    | cons op rest ih =>
      cases op with
      | update b =>
        have hstep : (TransferProgress.update s b).state.cancelled = true := h
        obtain ⟨h1, h2⟩ := ih _ hstep
        refine ⟨?_, ?_⟩
        · show (TransferProgress.update s b).callbackCalls
              + (runOps (TransferProgress.update s b).state rest).2 = 0
          rw [h1]
          simp [TransferProgress.update, h]
        · show (runOps (TransferProgress.update s b).state rest).1.transferred
              = s.transferred + (b + sumUpdates rest)
          rw [h2]
          show s.transferred + b + sumUpdates rest = s.transferred + (b + sumUpdates rest)
          ring
      | cancel =>
        have hstep : (TransferProgress.cancel s).cancelled = true := rfl
        obtain ⟨h1, h2⟩ := ih _ hstep
        refine ⟨h1, ?_⟩
        show (runOps (TransferProgress.cancel s) rest).1.transferred
            = s.transferred + sumUpdates rest
        rw [h2]
        rfl
  · intro s b hc hcb
    refine ⟨?_, rfl⟩
    simp [TransferProgress.update, hc, hcb]

/-- Witness for C10: a cancelled state sees no callback but its counter
still grows; an uncancelled state with a callback sees exactly one call. -/
theorem progress_cancel_callback_witness :
    (runOps ⟨100, 0, true, true⟩ [ProgressOp.update 5]).2 = 0
    ∧ (runOps ⟨100, 0, true, true⟩ [ProgressOp.update 5]).1.transferred
        = 0 + sumUpdates [ProgressOp.update 5]
    ∧ (TransferProgress.update ⟨100, 0, true, false⟩ 7).callbackCalls = 1 :=
  ⟨(progress_cancel_callback_spec.1 ⟨100, 0, true, true⟩ [ProgressOp.update 5] rfl).1,
   (progress_cancel_callback_spec.1 ⟨100, 0, true, true⟩ [ProgressOp.update 5] rfl).2,
   (progress_cancel_callback_spec.2.2 ⟨100, 0, true, false⟩ 7 rfl rfl).1⟩

/-! ### Backup-set grouping (src/core/backup_manager.py lines 246-296 and
src/core/transfer_manager.py lines 352-425) -/

/-- `any('database' in f.filename for f in backup_files)`. -/
def hasDatabaseFile (fns : List String) : Bool :=
  fns.any fun f => containsSub f "database"

/-- `any(f.filename.endswith('.tar') for f in backup_files)`. -/
def hasTarFile (fns : List String) : Bool :=
  fns.any fun f => strEndsWith f ".tar"

/-- `any('config' in f.filename for f in backup_files)`. -/
def hasConfigFile (fns : List String) : Bool :=
  fns.any fun f => containsSub f "config"

/-- The backup-set type rule of `BackupManager.list_backup_sets` (lines
266-277): `complete` needs database AND files AND config. -/
def deriveSetTypeBM (fns : List String) : String :=
  if hasDatabaseFile fns && hasTarFile fns && hasConfigFile fns then "complete"
  else if hasDatabaseFile fns && !hasTarFile fns then "database"
  else if hasTarFile fns && !hasDatabaseFile fns then "files"
  else "mixed"

/-- The backup-set type rule of `TransferManager.get_local_backup_sets`
(lines 395-407): `complete` needs only database AND files. -/
def deriveSetTypeTM (fns : List String) : String :=
  if hasDatabaseFile fns && hasTarFile fns then "complete"
  else if hasDatabaseFile fns && !hasTarFile fns then "database"
  else if hasTarFile fns && !hasDatabaseFile fns then "files"
  else "mixed"

/-- Append a record to the bucket of key `t`, creating the bucket at the end
if the key is new: the behaviour of `backup_groups[timestamp].append(...)`
on an insertion-ordered Python dict. -/
def insertGroup : List (String × List BackupInfo) → String → BackupInfo →
    List (String × List BackupInfo)
  | [], t, b => [(t, [b])]
  | (k, bs) :: rest, t, b =>
    if k = t then (k, bs ++ [b]) :: rest
    else (k, bs) :: insertGroup rest t b

/-- The grouping loop shared by both implementations: bucket each record by
its leading timestamp token; records whose filename has no such token are
skipped (the `if timestamp_match:` guard has no else branch). -/
def groupByTimestamp : List (String × List BackupInfo) → List BackupInfo →
    List (String × List BackupInfo)
  | groups, [] => groups
  | groups, b :: rest =>
    match timestampToken b.filename with
    | some t => groupByTimestamp (insertGroup groups t b) rest
    | none => groupByTimestamp groups rest

/-- Build one `BackupSet` from a bucket, as `BackupManager.list_backup_sets`
does: derived type, summed size, newest member time. -/
def mkBackupSetBM (site : String) (t : String) (files : List BackupInfo) : BackupSet :=
  { timestamp := t
    site_name := site
    backup_type := deriveSetTypeBM (files.map (·.filename))
    created_at := (files.map (·.created_at)).foldl max 0
    total_size_mb := (files.map (·.size_mb)).sum
    files := files }

/-- The unsorted backup-set list, in dict insertion order. -/
def backupSetsRaw (site : String) (records : List BackupInfo) : List BackupSet :=
  (groupByTimestamp [] records).map fun p => mkBackupSetBM site p.1 p.2

/-- Stable descending insertion by `created_at`: an element moves ahead of
exactly the elements with a strictly smaller key, which is the behaviour of
Python's stable `sorted(..., key=lambda x: x.created_at, reverse=True)`. -/
def insertDesc (x : BackupSet) : List BackupSet → List BackupSet
  | [] => [x]
  | y :: ys => if y.created_at ≤ x.created_at then x :: y :: ys else y :: insertDesc x ys

/-- Stable sort by `created_at` descending. -/
def sortByCreatedDesc : List BackupSet → List BackupSet
  | [] => []
  | x :: xs => insertDesc x (sortByCreatedDesc xs)

/-- `BackupManager.list_backup_sets`, as a function of the record list the
remote listing produced (the `site_name` argument names the site the sets
are labelled with). -/
def list_backup_sets (site : String) (records : List BackupInfo) : List BackupSet :=
  sortByCreatedDesc (backupSetsRaw site records)

/-! ### Claim C4 -/

/-- A concrete database-dump record sharing timestamp `20250101_000000`. -/
def recDb : BackupInfo :=
  { filename := "20250101_000000-site-database.sql.gz"
    filepath := "/remote/20250101_000000-site-database.sql.gz"
    site_name := "site"
    backup_type := "database"
    created_at := 100
    size_mb := 0
    compressed := true
    md5_hash := none }

/-- A concrete files-archive record sharing timestamp `20250101_000000`. -/
def recTar : BackupInfo :=
  { filename := "20250101_000000-site-files.tar"
    filepath := "/remote/20250101_000000-site-files.tar"
    site_name := "site"
    backup_type := "files"
    created_at := 100
    size_mb := 0
    compressed := true
    md5_hash := none }

/-- Counterexample to C4 as stated: a bucket holding exactly one database
record and one files archive (and no config artifact) gets backup type
`mixed`, not `complete`, from `BackupManager.list_backup_sets`, because its
`complete` branch additionally demands a config file. -/
theorem backup_set_type_complete_cx :
    hasDatabaseFile [recDb.filename, recTar.filename] = true
    ∧ hasTarFile [recDb.filename, recTar.filename] = true
    ∧ deriveSetTypeBM [recDb.filename, recTar.filename] = "mixed"
    ∧ (list_backup_sets "site" [recDb, recTar]).map (·.backup_type) = ["mixed"] := by
  decide

/-- Claim C4 as amended: `BackupManager.list_backup_sets` derives `complete`
exactly when database, files and config records are all present (so a plain
database+files pair degrades to `mixed`), while
`TransferManager.get_local_backup_sets` derives `complete` exactly when a
database record and a files record are present; both agree on the
`database`-only and `files`-only cases. -/
theorem backup_set_type_rules (fns : List String) :
    (deriveSetTypeBM fns = "complete"
        ↔ (hasDatabaseFile fns = true ∧ hasTarFile fns = true ∧ hasConfigFile fns = true))
    ∧ (deriveSetTypeTM fns = "complete"
        ↔ (hasDatabaseFile fns = true ∧ hasTarFile fns = true))
    ∧ (deriveSetTypeBM fns = "database"
        ↔ (hasDatabaseFile fns = true ∧ hasTarFile fns = false))
    ∧ (deriveSetTypeTM fns = "database"
        ↔ (hasDatabaseFile fns = true ∧ hasTarFile fns = false))
    ∧ (deriveSetTypeBM fns = "files"
        ↔ (hasTarFile fns = true ∧ hasDatabaseFile fns = false))
    ∧ (deriveSetTypeTM fns = "files"
        ↔ (hasTarFile fns = true ∧ hasDatabaseFile fns = false)) := by
  cases hdb : hasDatabaseFile fns <;> cases htar : hasTarFile fns <;>
    cases hcfg : hasConfigFile fns <;>
    simp [deriveSetTypeBM, deriveSetTypeTM, hdb, htar, hcfg]

/-! ### Lemmas about the stable descending sort -/

theorem mem_insertDesc {a x : BackupSet} {l : List BackupSet} :
    a ∈ insertDesc x l ↔ a = x ∨ a ∈ l := by
  induction l with
  | nil => simp [insertDesc]
  | cons y ys ih =>
    by_cases h : y.created_at ≤ x.created_at
    · rw [insertDesc, if_pos h]
      simp
    · rw [insertDesc, if_neg h]
      simp [ih]
      tauto

theorem perm_insertDesc (x : BackupSet) (l : List BackupSet) :
    List.Perm (insertDesc x l) (x :: l) := by
  induction l with
  | nil => simp [insertDesc]
  | cons y ys ih =>
    by_cases h : y.created_at ≤ x.created_at
    · rw [insertDesc, if_pos h]
    · rw [insertDesc, if_neg h]
      exact (List.Perm.cons y ih).trans (List.Perm.swap x y ys)

theorem perm_sortByCreatedDesc (l : List BackupSet) :
    List.Perm (sortByCreatedDesc l) l := by
  induction l with
  | nil => exact List.Perm.refl []
  | cons x xs ih =>
    exact (perm_insertDesc x (sortByCreatedDesc xs)).trans (List.Perm.cons x ih)

theorem mem_sortByCreatedDesc {s : BackupSet} {l : List BackupSet} :
    s ∈ sortByCreatedDesc l ↔ s ∈ l := by
  induction l with
  | nil => simp [sortByCreatedDesc]
  | cons x xs ih =>
    rw [sortByCreatedDesc, mem_insertDesc]
    simp [ih]

theorem sorted_insertDesc {x : BackupSet} {l : List BackupSet}
    (h : l.Pairwise fun a b => b.created_at ≤ a.created_at) :
    (insertDesc x l).Pairwise fun a b => b.created_at ≤ a.created_at := by
  induction l with
  | nil => simp [insertDesc]
  | cons y ys ih =>
    rcases List.pairwise_cons.mp h with ⟨hy, hys⟩
    by_cases hc : y.created_at ≤ x.created_at
    · rw [insertDesc, if_pos hc]
      refine List.pairwise_cons.mpr ⟨?_, h⟩
      intro z hz
      rcases List.mem_cons.mp hz with rfl | hz
      · exact hc
      · exact le_trans (hy z hz) hc
    · rw [insertDesc, if_neg hc]
      refine List.pairwise_cons.mpr ⟨?_, ih hys⟩
      intro z hz
      rcases mem_insertDesc.mp hz with rfl | hz
      · exact le_of_lt (not_le.mp hc)
      · exact hy z hz

theorem sorted_sortByCreatedDesc (l : List BackupSet) :
    (sortByCreatedDesc l).Pairwise fun a b => b.created_at ≤ a.created_at := by
  induction l with
  | nil => simp [sortByCreatedDesc]
  | cons x xs ih => exact sorted_insertDesc ih

theorem filter_insertDesc (x : BackupSet) (l : List BackupSet) (k : Nat) :
    (insertDesc x l).filter (fun s => decide (s.created_at = k))
      = if x.created_at = k
        then x :: l.filter (fun s => decide (s.created_at = k))
        else l.filter (fun s => decide (s.created_at = k)) := by
  induction l with
  | nil =>
    by_cases h : x.created_at = k <;> simp [insertDesc, h]
  | cons y ys ih =>
    by_cases hc : y.created_at ≤ x.created_at
    · rw [insertDesc, if_pos hc]
      by_cases h : x.created_at = k <;> simp [List.filter_cons, h]
    · rw [insertDesc, if_neg hc]
      by_cases hy : y.created_at = k
      · by_cases h : x.created_at = k
        · exact absurd (le_of_eq (hy.trans h.symm)) hc
        · simp [List.filter_cons, hy, h, ih]
      · by_cases h : x.created_at = k <;> simp [List.filter_cons, hy, h, ih]

theorem filter_sortByCreatedDesc (l : List BackupSet) (k : Nat) :
    (sortByCreatedDesc l).filter (fun s => decide (s.created_at = k))
      = l.filter (fun s => decide (s.created_at = k)) := by
  induction l with
  | nil => rfl
  | cons x xs ih =>
    rw [sortByCreatedDesc, filter_insertDesc, List.filter_cons, ih]
    by_cases h : x.created_at = k <;> simp [h]

/-! ### Lemmas about the fold computing the newest member time -/

theorem le_foldl_max (l : List Nat) :
    ∀ a : Nat, a ≤ l.foldl max a ∧ ∀ x ∈ l, x ≤ l.foldl max a := by
  induction l with
  | nil =>
    intro a
    exact ⟨le_refl a, by simp⟩
  | cons y ys ih =>
    intro a
    refine ⟨le_trans (le_max_left a y) (ih (max a y)).1, ?_⟩
    intro x hx
    rcases List.mem_cons.mp hx with rfl | hx
    · exact le_trans (le_max_right a x) (ih (max a x)).1
    · exact (ih (max a y)).2 x hx

theorem foldl_max_mem (l : List Nat) :
    ∀ a : Nat, l.foldl max a = a ∨ l.foldl max a ∈ l := by
  induction l with
  | nil => intro a; exact Or.inl rfl
  | cons y ys ih =>
    intro a
    rcases ih (max a y) with h | h
    · rcases max_choice a y with hm | hm
      · exact Or.inl (by rw [List.foldl_cons, h, hm])
      · refine Or.inr ?_
        rw [List.foldl_cons, h, hm]
        exact List.mem_cons_self y ys
    · refine Or.inr (List.mem_cons_of_mem y ?_)
      rw [List.foldl_cons]
      exact h

theorem foldl_max_spec (l : List Nat) (hne : l ≠ []) :
    (∀ x ∈ l, x ≤ l.foldl max 0) ∧ l.foldl max 0 ∈ l := by
  refine ⟨(le_foldl_max l 0).2, ?_⟩
  rcases foldl_max_mem l 0 with h | h
  · cases l with
    | nil => exact absurd rfl hne
    | cons y ys =>
      have hy : y ≤ List.foldl max 0 (y :: ys) :=
        (le_foldl_max (y :: ys) 0).2 y (List.mem_cons_self y ys)
      rw [h] at hy ⊢
      have hz : y = 0 := Nat.le_zero.mp hy
      exact hz ▸ List.mem_cons_self y ys
  · exact h

/-! ### Lemmas about the grouping loop -/

/-- Some bucket of the group list contains the record. -/
def InGroups (r : BackupInfo) (gs : List (String × List BackupInfo)) : Prop :=
  ∃ p ∈ gs, r ∈ p.2

theorem inGroups_insertGroup (t : String) (b r : BackupInfo) :
    ∀ gs, InGroups r gs → InGroups r (insertGroup gs t b) := by
  intro gs
  induction gs with
  | nil =>
    rintro ⟨p, hp, -⟩
    simp at hp
  | cons g rest ih =>
    rintro ⟨p, hp, hr⟩
    obtain ⟨k, bs⟩ := g
    by_cases hk : k = t
    · rw [insertGroup, if_pos hk]
      rcases List.mem_cons.mp hp with rfl | hp
      · exact ⟨(k, bs ++ [b]), List.mem_cons_self _ _, List.mem_append_left _ hr⟩
      · exact ⟨p, List.mem_cons_of_mem _ hp, hr⟩
    · rw [insertGroup, if_neg hk]
      rcases List.mem_cons.mp hp with rfl | hp
      · exact ⟨(k, bs), List.mem_cons_self _ _, hr⟩
      · obtain ⟨q, hq, hrq⟩ := ih ⟨p, hp, hr⟩
        exact ⟨q, List.mem_cons_of_mem _ hq, hrq⟩

theorem inGroups_insertGroup_self (t : String) (b : BackupInfo) :
    ∀ gs, InGroups b (insertGroup gs t b) := by
  intro gs
  induction gs with
  | nil =>
    exact ⟨(t, [b]), List.mem_cons_self _ _, List.mem_cons_self _ _⟩
  | cons g rest ih =>
    obtain ⟨k, bs⟩ := g
    by_cases hk : k = t
    · rw [insertGroup, if_pos hk]
      exact ⟨(k, bs ++ [b]), List.mem_cons_self _ _,
        List.mem_append_right _ (List.mem_cons_self _ _)⟩
    · rw [insertGroup, if_neg hk]
      obtain ⟨q, hq, hbq⟩ := ih
      exact ⟨q, List.mem_cons_of_mem _ hq, hbq⟩

theorem inGroups_groupByTimestamp (recs : List BackupInfo) :
    ∀ gs r, InGroups r gs → InGroups r (groupByTimestamp gs recs) := by
  induction recs with
  | nil => intro gs r h; exact h
  | cons b rest ih =>
    intro gs r h
    rw [groupByTimestamp]
    cases htk : timestampToken b.filename with
    | some t => exact ih _ r (inGroups_insertGroup t b r gs h)
    | none => exact ih _ r h

theorem inGroups_groupByTimestamp_self (recs : List BackupInfo) :
    ∀ gs (r : BackupInfo) (t : String), r ∈ recs →
      timestampToken r.filename = some t →
      InGroups r (groupByTimestamp gs recs) := by
  induction recs with
  | nil =>
    intro gs r t h
    exact absurd h (List.not_mem_nil r)
  | cons b rest ih =>
    intro gs r t hmem htok
    rw [groupByTimestamp]
    rcases List.mem_cons.mp hmem with rfl | hmem
    · rw [htok]
      exact inGroups_groupByTimestamp rest _ r (inGroups_insertGroup_self t r gs)
    · cases htk : timestampToken b.filename with
      | some t2 => exact ih _ r t hmem htok
      | none => exact ih _ r t hmem htok

/-- The invariant of the grouping loop: bucket keys are distinct, every
bucket is nonempty, and every record sits in the bucket of its own
timestamp token. -/
def GroupsWF (gs : List (String × List BackupInfo)) : Prop :=
  (gs.map Prod.fst).Nodup
  ∧ ∀ p ∈ gs, p.2 ≠ [] ∧ ∀ b ∈ p.2, timestampToken b.filename = some p.1

theorem mem_keys_insertGroup {t k : String} {b : BackupInfo} :
    ∀ gs, (k ∈ (insertGroup gs t b).map Prod.fst ↔ k ∈ gs.map Prod.fst ∨ k = t) := by
  intro gs
  induction gs with
  | nil => simp [insertGroup]
  | cons g rest ih =>
    obtain ⟨k2, bs⟩ := g
    by_cases hk : k2 = t
    · subst hk
      rw [insertGroup, if_pos rfl]
      simp
      tauto
    · rw [insertGroup, if_neg hk]
      simp [ih]
      tauto

theorem wf_insertGroup (t : String) (b : BackupInfo)
    (htok : timestampToken b.filename = some t) :
    ∀ gs, GroupsWF gs → GroupsWF (insertGroup gs t b) := by
  intro gs
  induction gs with
  | nil =>
    intro _
    refine ⟨by simp [insertGroup], ?_⟩
    intro p hp
    rw [insertGroup] at hp
    rcases List.mem_cons.mp hp with rfl | hp
    · refine ⟨by simp, ?_⟩
      intro x hx
      rcases List.mem_cons.mp hx with rfl | hx
      · exact htok
      · simp at hx
    · simp at hp
  | cons g rest ih =>
    intro hwf
    obtain ⟨k, bs⟩ := g
    obtain ⟨hnd, hall⟩ := hwf
    rw [List.map_cons, List.nodup_cons] at hnd
    obtain ⟨hknotin, hndrest⟩ := hnd
    have hwfrest : GroupsWF rest :=
      ⟨hndrest, fun p hp => hall p (List.mem_cons_of_mem _ hp)⟩
    by_cases hk : k = t
    · subst hk
      rw [insertGroup, if_pos rfl]
      refine ⟨?_, ?_⟩
      · rw [List.map_cons]
        exact List.nodup_cons.mpr ⟨hknotin, hndrest⟩
      · intro p hp
        rcases List.mem_cons.mp hp with rfl | hp
        · refine ⟨by simp, ?_⟩
          intro x hx
          rcases List.mem_append.mp hx with hx | hx
          · exact (hall (k, bs) (List.mem_cons_self _ _)).2 x hx
          · rw [List.mem_singleton.mp hx]
            exact htok
        · exact hall p (List.mem_cons_of_mem _ hp)
    · rw [insertGroup, if_neg hk]
      have ihr := ih hwfrest
      refine ⟨?_, ?_⟩
      · rw [List.map_cons]
        refine List.nodup_cons.mpr ⟨?_, ihr.1⟩
        intro hmem
        rcases (mem_keys_insertGroup rest).mp hmem with hmem | rfl
        · exact hknotin hmem
        · exact hk rfl
      · intro p hp
        rcases List.mem_cons.mp hp with rfl | hp
        · exact hall (k, bs) (List.mem_cons_self _ _)
        · exact ihr.2 p hp

theorem wf_groupByTimestamp (recs : List BackupInfo) :
    ∀ gs, GroupsWF gs → GroupsWF (groupByTimestamp gs recs) := by
  induction recs with
  | nil => intro gs h; exact h
  | cons b rest ih =>
    intro gs h
    rw [groupByTimestamp]
    cases htk : timestampToken b.filename with
    | some t => exact ih _ (wf_insertGroup t b htk gs h)
    | none => exact ih _ h

theorem wf_groups_of_records (records : List BackupInfo) :
    GroupsWF (groupByTimestamp [] records) :=
  wf_groupByTimestamp records [] ⟨by simp, by simp⟩

/-! ### Claim C7 -/

/-- Claim C7: `list_backup_sets` returns the sets sorted by `created_at`
descending, with ties broken by dict insertion order (the sort is stable
with respect to the unsorted set list `backupSetsRaw`), and every returned
set is nonempty, carries the maximum member `created_at`, and totals the
sum of its member sizes. -/
theorem backup_sets_sorted_spec (site : String) (records : List BackupInfo) :
    (list_backup_sets site records).Pairwise (fun a b => b.created_at ≤ a.created_at)
    ∧ (∀ k : Nat,
        (list_backup_sets site records).filter (fun s => decide (s.created_at = k))
          = (backupSetsRaw site records).filter (fun s => decide (s.created_at = k)))
    ∧ (∀ s ∈ list_backup_sets site records,
        s.files ≠ []
        ∧ (∀ f ∈ s.files, f.created_at ≤ s.created_at)
        ∧ (∃ f ∈ s.files, f.created_at = s.created_at)
        ∧ s.total_size_mb = (s.files.map (·.size_mb)).sum) := by
  refine ⟨sorted_sortByCreatedDesc _, fun k => filter_sortByCreatedDesc _ k, ?_⟩
  intro s hs
  rw [list_backup_sets, mem_sortByCreatedDesc, backupSetsRaw] at hs
  obtain ⟨p, hp, rfl⟩ := List.mem_map.mp hs
  have hwf := wf_groups_of_records records
  have hne : p.2 ≠ [] := (hwf.2 p hp).1
  have hnem : p.2.map (·.created_at) ≠ [] := by
    simpa using hne
  have hfm := foldl_max_spec (p.2.map (·.created_at)) hnem
  refine ⟨hne, ?_, ?_, rfl⟩
  · intro f hf
    exact hfm.1 _ (List.mem_map_of_mem _ hf)
  · obtain ⟨f, hf, hfe⟩ := List.mem_map.mp hfm.2
    exact ⟨f, hf, hfe⟩

/-- The single backup set produced from the records `recDb` and `recTar`. -/
def sampleSet : BackupSet :=
  mkBackupSetBM "site" "20250101_000000" [recDb, recTar]

/-- Witness for C7: the nonemptiness / maximum / sum facts instantiated at
the concrete two-record listing, whose single set is `sampleSet`. -/
theorem backup_sets_sorted_witness :
    sampleSet.files ≠ []
    ∧ (∀ f ∈ sampleSet.files, f.created_at ≤ sampleSet.created_at)
    ∧ (∃ f ∈ sampleSet.files, f.created_at = sampleSet.created_at)
    ∧ sampleSet.total_size_mb = (sampleSet.files.map (·.size_mb)).sum :=
  (backup_sets_sorted_spec "site" [recDb, recTar]).2.2 sampleSet
    (show sampleSet ∈ [sampleSet] from List.mem_cons_self _ _)

/-! ### Claim C3 -/

/-- A record whose filename does not begin with the `\d{8}_\d{6}` token. -/
def recNoTs : BackupInfo :=
  { filename := "latest-backup.tar"
    filepath := "/remote/latest-backup.tar"
    site_name := "site"
    backup_type := "files"
    created_at := 100
    size_mb := 0
    compressed := true
    md5_hash := none }

/-- Counterexample to C3 as stated: a record without the leading timestamp
token is silently dropped by the grouping — the listing built from it alone
is empty, so the record appears in no resulting set (no singleton set with
a synthetic key is created). -/
theorem grouping_drops_unmatched_cx :
    timestampToken recNoTs.filename = none
    ∧ list_backup_sets "site" [recNoTs] = []
    ∧ recNoTs ∈ [recNoTs] := by
  refine ⟨by decide, ?_, List.mem_cons_self _ _⟩
  rfl

/-- Claim C3 as amended: every record whose filename begins with the
timestamp token appears in exactly one of the resulting backup sets (the
set keyed by its token), while a record without the token appears in no
set at all — it is silently dropped, not placed in a singleton set. -/
theorem grouping_membership_spec (site : String) (records : List BackupInfo)
    (r : BackupInfo) (hr : r ∈ records) :
    (∀ t, timestampToken r.filename = some t →
      ∃ s, (s ∈ list_backup_sets site records ∧ r ∈ s.files ∧ s.timestamp = t)
        ∧ ∀ s2, s2 ∈ list_backup_sets site records → r ∈ s2.files → s2 = s)
    ∧ (timestampToken r.filename = none →
      ∀ s ∈ list_backup_sets site records, r ∉ s.files) := by
  have hwf := wf_groups_of_records records
  constructor
  · intro t htok
    obtain ⟨p, hp, hrp⟩ := inGroups_groupByTimestamp_self records [] r t hr htok
    have hp1 : p.1 = t := by
      have h1 := (hwf.2 p hp).2 r hrp
      rw [htok] at h1
      injection h1 with h1
      exact h1.symm
    refine ⟨mkBackupSetBM site p.1 p.2, ⟨?_, hrp, hp1⟩, ?_⟩
    · rw [list_backup_sets, mem_sortByCreatedDesc, backupSetsRaw]
      exact List.mem_map_of_mem _ hp
    · intro s2 hs2 hrs2
      rw [list_backup_sets, mem_sortByCreatedDesc, backupSetsRaw] at hs2
      obtain ⟨q, hq, rfl⟩ := List.mem_map.mp hs2
      have h2 := (hwf.2 q hq).2 r hrs2
      rw [htok] at h2
      injection h2 with h2
      have h3 : q.1 = p.1 := by rw [hp1, ← h2]
      have h4 : q = p := List.inj_on_of_nodup_map hwf.1 hq hp h3
      rw [h4]
  · intro hnone s hs hrs
    rw [list_backup_sets, mem_sortByCreatedDesc, backupSetsRaw] at hs
    obtain ⟨q, hq, rfl⟩ := List.mem_map.mp hs
    have h2 := (hwf.2 q hq).2 r hrs
    rw [hnone] at h2
    exact Option.noConfusion h2

/-- Witness for C3 at a single matched record: it lands in exactly one set. -/
theorem grouping_membership_witness :
    ∃ s, (s ∈ list_backup_sets "site" [recDb] ∧ recDb ∈ s.files
        ∧ s.timestamp = "20250101_000000")
      ∧ ∀ s2, s2 ∈ list_backup_sets "site" [recDb] → recDb ∈ s2.files → s2 = s :=
  (grouping_membership_spec "site" [recDb] recDb (List.mem_cons_self _ _)).1
    "20250101_000000" (by decide)

/-! ### Download with retries (src/core/transfer_manager.py lines 101-196) -/

/-- `TransferManager.max_retries` (set in `__init__`). -/
def max_retries : Nat := 3

/-- `TransferManager.chunk_size` in bytes (set in `__init__`). -/
def chunk_size : Nat := 32768

/-- The environment's outcome for one download attempt: `err` is the message
of the exception `sftp.get` raised, if any (wrapped by
`_download_file_with_progress` into `TransferError('SFTP transfer failed: ...')`),
and `fileAfter` is the size of the file left at the destination afterwards
(`none` when no file was created). -/
structure Attempt where
  err : Option String
  fileAfter : Option Nat
deriving Repr, DecidableEq

/-- Python return value of a transfer call: the returned local path, or the
raised exception. -/
inductive DLResult where
  | ok (path : String)
  | err (e : PyErr)
deriving Repr, DecidableEq

/-- Observable outcome of a download/resume call: its result, the state of
the destination file when the call returns or raises, and how many transfer
attempts were performed. -/
structure DLOut where
  result : DLResult
  file : Option Nat
  attemptsMade : Nat
deriving Repr, DecidableEq

/-- The message of the exception a failed attempt raises inside the retry
loop: the wrapped SFTP error, or the verification failure. -/
def attemptErrMsg (a : Attempt) : String :=
  match a.err with
  | some e => "SFTP transfer failed: " ++ e
  | none => "Download verification failed"

/-- The final `TransferError` message after exhausting all attempts. -/
def exhaustedMsg (e : String) : String :=
  "Download failed after " ++ toString max_retries ++ " attempts: " ++ e

/-- The retry loop of `download_backup` (lines 130-155): each attempt either
raises (wrapped SFTP error) or produces a file which is then size-verified;
a non-final failure deletes the partial file and retries, the final failure
raises `TransferError` with the last error — leaving the partial file. -/
def downloadLoop (path : String) (r : Nat) (made : Nat) (st : Option Nat) :
    List Attempt → DLOut
  | [] => ⟨.err (.transfer "Download failed"), st, made⟩
  | a :: rest =>
    match a.err with
    | some e =>
      match rest with
      | [] => ⟨.err (.transfer (exhaustedMsg ("SFTP transfer failed: " ++ e))),
          a.fileAfter, made + 1⟩
      | _ :: _ => downloadLoop path r (made + 1) none rest
    | none =>
      if a.fileAfter = some r then ⟨.ok path, a.fileAfter, made + 1⟩
      else
        match rest with
        | [] => ⟨.err (.transfer (exhaustedMsg "Download verification failed")),
            a.fileAfter, made + 1⟩
        | _ :: _ => downloadLoop path r (made + 1) none rest

/-- `int(backup_info.size_mb * 1024 * 1024)`: the record's recorded size in
bytes, used only by the pre-download short-circuit. -/
def recordedSizeBytes (size_mb : ℚ) : Int :=
  ratTrunc (size_mb * (1024 * 1024))

/-- `local_filename = local_filename or backup_info.filename`. -/
def resolveLocalFilename (info : BackupInfo) (lf : Option String) : String :=
  lf.getD info.filename

/-- `str(self.local_storage_path / local_filename)`. -/
def localPathOf (storage fname : String) : String :=
  storage ++ "/" ++ fname

/-- `TransferManager.download_backup`: short-circuit when the local file
already exists with the recorded size; fail fast when the remote size is
unavailable; otherwise run the retry loop, whose per-attempt outcomes the
environment supplies through `attempts`. -/
def download_backup (storage : String) (info : BackupInfo) (local_filename : Option String)
    (localExists : Bool) (localSize : Nat) (remoteSize : Option Nat)
    (attempts : Nat → Attempt) : DLOut :=
  let fname := resolveLocalFilename info local_filename
  let path := localPathOf storage fname
  let initFile : Option Nat := if localExists then some localSize else none
  if localExists = true ∧ (localSize : Int) = recordedSizeBytes info.size_mb then
    ⟨.ok path, initFile, 0⟩
  else
    match remoteSize with
    | none => ⟨.err (.transfer ("Could not determine size of remote file: " ++ info.filepath)),
        initFile, 0⟩
    | some r => downloadLoop path r 0 initFile ((List.range max_retries).map attempts)

/-! ### Resume (src/core/transfer_manager.py lines 276-334) -/

/-- One event of the chunked append loop of `resume_download`: a chunk of
`n` bytes was read, the stream ended, or the read/write raised an I/O
error. -/
inductive ChunkEv where
  | chunk (n : Nat)
  | eof
  | fail (msg : String)
deriving Repr, DecidableEq

/-- The `while True` append loop (lines 313-322): write each chunk (growing
the local file) then poll the cancellation flag; stop at end of stream.
Returns the final local size and the exception raised inside the `try`
block, if any. -/
def resumeLoop (cancelled : Nat → Bool) : Nat → Nat → List ChunkEv → Nat × Option PyErr
  | fileSize, _, [] => (fileSize, none)
  | fileSize, _, ChunkEv.eof :: _ => (fileSize, none)
  | fileSize, _, ChunkEv.fail msg :: _ => (fileSize, some (.other msg))
  | fileSize, k, ChunkEv.chunk n :: rest =>
    if n = 0 then (fileSize, none)
    else if cancelled k then (fileSize + n, some (.transfer "Transfer cancelled by user"))
    else resumeLoop cancelled (fileSize + n) (k + 1) rest

/-- `TransferManager.resume_download`: delegate to `download_backup` when no
partial file exists; fail when the remote size is unavailable; return at
once when sizes already match; raise without touching the file when the
local file is larger; otherwise run the append loop once — any exception it
raises is caught and re-raised as a single wrapped `TransferError`, with no
retry. -/
def resume_download (storage : String) (info : BackupInfo) (local_path : String)
    (localExists : Bool) (localSize : Nat) (remoteSize : Option Nat)
    (cancelled : Nat → Bool) (chunks : List ChunkEv) (attempts : Nat → Attempt) : DLOut :=
  if localExists = false then
    download_backup storage info (some (basename local_path)) false 0 remoteSize attempts
  else
    match remoteSize with
    | none => ⟨.err (.transfer "Could not determine remote file size"), some localSize, 0⟩
    | some r =>
      if r ≤ localSize then
        if localSize = r then ⟨.ok local_path, some localSize, 0⟩
        else ⟨.err (.transfer "Local file is larger than remote file"), some localSize, 0⟩
      else
        let res := resumeLoop cancelled localSize 0 chunks
        match res.2 with
        | some e => ⟨.err (.transfer ("Resume download failed: " ++ errMsg e)), some res.1, 1⟩
        | none =>
          if res.1 = r then ⟨.ok local_path, some res.1, 1⟩
          else ⟨.err (.transfer "Resume download failed: Resume download verification failed"),
              some res.1, 1⟩

/-! ### Upload (src/core/transfer_manager.py lines 198-244) -/

/-- A remote side effect of `upload_backup`. -/
inductive RemoteOp where
  | ensureDir (d : String)
  | putFile (p : String)
deriving Repr, DecidableEq

/-- Python return value of `upload_backup`. -/
inductive UploadResult where
  | success (b : Bool)
  | err (e : PyErr)
deriving Repr, DecidableEq

/-- Observable outcome of `upload_backup`: its result, the total the
`TransferProgress` tracker was seeded with (`none` when no tracker was ever
constructed), and the remote operations performed. -/
structure UploadOut where
  result : UploadResult
  progressTotal : Option Nat
  remoteOps : List RemoteOp
deriving Repr, DecidableEq

/-- The environment's outcomes for the three failure points inside the
`try` block of `upload_backup`: obtaining the SFTP client, the recursive
remote-directory creation, and the `put` itself. -/
structure UploadEnv where
  connectErr : Option String
  dirErr : Option String
  putErr : Option String
deriving Repr, DecidableEq

/-- The `sftp.put` stage shared by both directory cases. -/
def uploadPutStage (remote_path : String) (localSize : Nat) (dirOps : List RemoteOp)
    (putErr : Option String) : UploadOut :=
  match putErr with
  | some e => ⟨.err (.transfer ("Upload failed: " ++ e)), some localSize,
      dirOps ++ [.putFile remote_path]⟩
  | none => ⟨.success true, some localSize, dirOps ++ [.putFile remote_path]⟩

/-- `TransferManager.upload_backup`: raise `TransferError` at once when the
local source file does not exist (before creating the progress tracker and
before any remote interaction); otherwise create the tracker, ensure the
remote directory when the path has one, and `put` the file, wrapping any
exception as `TransferError('Upload failed: ...')`. -/
def upload_backup (local_path remote_path : String) (localExists : Bool)
    (localSize : Nat) (env : UploadEnv) : UploadOut :=
  if localExists = false then
    ⟨.err (.transfer ("Local file not found: " ++ local_path)), none, []⟩
  else
    match env.connectErr with
    | some e => ⟨.err (.transfer ("Upload failed: " ++ e)), some localSize, []⟩
    | none =>
      let rd := dirname remote_path
      if rd = "" then uploadPutStage remote_path localSize [] env.putErr
      else
        match env.dirErr with
        | some e => ⟨.err (.transfer ("Upload failed: " ++ e)), some localSize, [.ensureDir rd]⟩
        | none => uploadPutStage remote_path localSize [.ensureDir rd] env.putErr

/-! ### Lemmas about the download retry loop -/

/-- An attempt that fails: its transfer raised, or the file it left does not
have the expected size (so verification fails). -/
def attemptFails (r : Nat) (a : Attempt) : Prop :=
  a.err ≠ none ∨ a.fileAfter ≠ some r

theorem fileAfter_ne_of_fails {r : Nat} {a : Attempt}
    (hf : attemptFails r a) (h : a.err = none) : a.fileAfter ≠ some r := by
  rcases hf with hf | hf
  · exact absurd h hf
  · exact hf

theorem downloadLoop_step_fail (path : String) (r made : Nat) (st : Option Nat)
    (a : Attempt) (b : Attempt) (bs : List Attempt) (hf : attemptFails r a) :
    downloadLoop path r made st (a :: b :: bs)
      = downloadLoop path r (made + 1) none (b :: bs) := by
  rcases h : a.err with _ | e
  · have hv := fileAfter_ne_of_fails hf h
    simp [downloadLoop, h, hv]
  · simp [downloadLoop, h]

theorem downloadLoop_last_fail (path : String) (r made : Nat) (st : Option Nat)
    (a : Attempt) (hf : attemptFails r a) :
    downloadLoop path r made st [a]
      = ⟨.err (.transfer (exhaustedMsg (attemptErrMsg a))), a.fileAfter, made + 1⟩ := by
  rcases h : a.err with _ | e
  · have hv := fileAfter_ne_of_fails hf h
    simp [downloadLoop, h, hv, attemptErrMsg]
  · simp [downloadLoop, h, attemptErrMsg]

theorem downloadLoop_no_raw (path : String) (r : Nat) :
    ∀ (l : List Attempt) (made : Nat) (st : Option Nat) (m : String),
      (downloadLoop path r made st l).result ≠ DLResult.err (.other m) := by
  intro l
  induction l with
  | nil => intro made st m; simp [downloadLoop]
  | cons a rest ih =>
    intro made st m
    rcases h : a.err with _ | e
    · by_cases hv : a.fileAfter = some r
      · simp [downloadLoop, h, hv]
      · cases rest with
        | nil => simp [downloadLoop, h, hv]
        | cons b bs => simpa [downloadLoop, h, hv] using ih (made + 1) none m
    · cases rest with
      | nil => simp [downloadLoop, h]
      | cons b bs => simpa [downloadLoop, h] using ih (made + 1) none m

theorem download_backup_no_raw (storage : String) (info : BackupInfo)
    (lf : Option String) (localExists : Bool) (localSize : Nat)
    (remoteSize : Option Nat) (attempts : Nat → Attempt) :
    ∀ m, (download_backup storage info lf localExists localSize remoteSize attempts).result
      ≠ DLResult.err (.other m) := by
  intro m
  by_cases hsc : localExists = true ∧ (localSize : Int) = recordedSizeBytes info.size_mb
  · simp [download_backup, hsc]
  · cases remoteSize with
    | none => simp [download_backup, hsc]
    | some r =>
      simp only [download_backup, if_neg hsc]
      exact downloadLoop_no_raw _ _ _ _ _ m

/-! ### Claim C1 -/

/-- Counterexample to C1 as stated: a download whose three attempts all
raise (each leaving a 5-byte partial file at the destination) raises the
exhaustion `TransferError` after 3 attempts carrying the last error — but
the partial file of the final attempt is still present when the error is
raised, because the `local_path.unlink()` cleanup runs only before a retry,
not in the final-failure branch. -/
theorem download_exhaustion_partial_cx :
    download_backup "./backups" recDb none false 0 (some 10)
        (fun _ => ⟨some "boom", some 5⟩)
      = ⟨.err (.transfer "Download failed after 3 attempts: SFTP transfer failed: boom"),
          some 5, 3⟩
    ∧ (some 5 : Option Nat) ≠ none := by
  exact ⟨rfl, by decide⟩

/-- Claim C1 as amended: a download whose attempts all fail raises
`TransferError` after exactly `max_retries = 3` attempts, carrying the last
underlying error; partial files are deleted before each retry, but whatever
partial file the final attempt left remains at the destination when the
error is raised. -/
theorem download_retry_exhaustion (storage : String) (info : BackupInfo)
    (lf : Option String) (localSize r : Nat) (attempts : Nat → Attempt)
    (hfail : ∀ i, i < max_retries → attemptFails r (attempts i)) :
    download_backup storage info lf false localSize (some r) attempts
      = ⟨.err (.transfer (exhaustedMsg (attemptErrMsg (attempts 2)))),
          (attempts 2).fileAfter, 3⟩ := by
  have h0 := hfail 0 (by decide)
  have h1 := hfail 1 (by decide)
  have h2 := hfail 2 (by decide)
  show downloadLoop (localPathOf storage (resolveLocalFilename info lf)) r 0 none
      [attempts 0, attempts 1, attempts 2]
    = ⟨.err (.transfer (exhaustedMsg (attemptErrMsg (attempts 2)))),
        (attempts 2).fileAfter, 3⟩
  rw [downloadLoop_step_fail _ _ _ _ _ _ _ h0,
    downloadLoop_step_fail _ _ _ _ _ _ _ h1,
    downloadLoop_last_fail _ _ _ _ _ h2]

/-- Witness for C1 (amended) at a concrete always-failing environment. -/
theorem download_retry_exhaustion_witness :
    download_backup "store" recDb none false 0 (some 7)
        (fun _ => ⟨some "io down", none⟩)
      = ⟨.err (.transfer (exhaustedMsg (attemptErrMsg ⟨some "io down", none⟩))),
          (none : Option Nat), 3⟩ :=
  download_retry_exhaustion "store" recDb none 0 7 (fun _ => ⟨some "io down", none⟩)
    (fun _ _ => Or.inl fun hcon => Option.noConfusion hcon)

/-! ### Claim C5 -/

/-- Claim C5: when the destination file already exists with exactly the
record's recorded size, `download_backup` returns that path unchanged with
zero transfer attempts — the result does not depend on the remote size
query or on any attempt outcome, so no bytes are re-read. -/
theorem download_idempotent_short_circuit (storage : String) (info : BackupInfo)
    (lf : Option String) (localSize : Nat) (remoteSize : Option Nat)
    (attempts : Nat → Attempt)
    (h : (localSize : Int) = recordedSizeBytes info.size_mb) :
    download_backup storage info lf true localSize remoteSize attempts
      = ⟨.ok (localPathOf storage (resolveLocalFilename info lf)), some localSize, 0⟩ := by
  simp [download_backup, h]

/-- Witness for C5: a zero-byte record already present locally. -/
theorem download_idempotent_witness :
    download_backup "store" recDb none true 0 none (fun _ => ⟨some "never", none⟩)
      = ⟨.ok (localPathOf "store" (resolveLocalFilename recDb none)), some 0, 0⟩ :=
  download_idempotent_short_circuit "store" recDb none 0 none
    (fun _ => ⟨some "never", none⟩) (by simp [recDb, recordedSizeBytes, ratTrunc])

/-! ### Claim C6 -/

/-- Claim C6: with a partial file present, `resume_download` on a local file
strictly larger than the remote artifact raises `TransferError` ("Local file
is larger than remote file", the `InvalidState` case) with the local file
untouched and zero transfer attempts; when the sizes are equal it returns
the local path at once, again with zero transfer attempts. -/
theorem resume_precondition_spec (storage : String) (info : BackupInfo)
    (local_path : String) (localSize r : Nat) (cancelled : Nat → Bool)
    (chunks : List ChunkEv) (attempts : Nat → Attempt) :
    (r < localSize →
      resume_download storage info local_path true localSize (some r) cancelled chunks attempts
        = ⟨.err (.transfer "Local file is larger than remote file"), some localSize, 0⟩)
    ∧ (localSize = r →
      resume_download storage info local_path true localSize (some r) cancelled chunks attempts
        = ⟨.ok local_path, some localSize, 0⟩) := by
  constructor
  · intro h
    rw [resume_download, if_neg (by simp), if_pos (le_of_lt h), if_neg (by omega)]
  · intro h
    rw [resume_download, if_neg (by simp), if_pos (le_of_eq h.symm), if_pos h]

/-- Witness for C6: a 9-byte local file against a 4-byte remote artifact,
and a 4-byte local file against the same artifact. -/
theorem resume_precondition_witness :
    resume_download "store" recDb "q" true 9 (some 4) (fun _ => false) []
        (fun _ => ⟨none, none⟩)
      = ⟨.err (.transfer "Local file is larger than remote file"), some 9, 0⟩
    ∧ resume_download "store" recDb "q" true 4 (some 4) (fun _ => false) []
        (fun _ => ⟨none, none⟩)
      = ⟨.ok "q", some 4, 0⟩ :=
  ⟨(resume_precondition_spec "store" recDb "q" 9 4 (fun _ => false) []
      (fun _ => ⟨none, none⟩)).1 (by decide),
   (resume_precondition_spec "store" recDb "q" 4 4 (fun _ => false) []
      (fun _ => ⟨none, none⟩)).2 rfl⟩

/-! ### Claim C2 -/

/-- Counterexample to C2 as stated: a resume whose first chunk read raises
an I/O error surfaces a wrapped `TransferError` immediately after a single
transfer attempt — no retry happens even though the configured limit is 3
attempts. -/
theorem resume_failure_retry_cx :
    resume_download "./backups" recDb "p" true 5 (some 10) (fun _ => false)
        [ChunkEv.fail "io boom"] (fun _ => ⟨none, none⟩)
      = ⟨.err (.transfer "Resume download failed: io boom"), some 5, 1⟩
    ∧ max_retries = 3 :=
  ⟨rfl, rfl⟩

/-- Claim C2 as amended: `resume_download` performs no retries — a
chunk-level I/O failure or a failed post-transfer size verification is
caught and re-raised at once as a single wrapped `TransferError` after
exactly one transfer attempt; raw chunk-level I/O errors never reach the
caller from any path of `resume_download` (including delegation to
`download_backup`). -/
theorem resume_no_retry_wraps_errors (storage : String) (info : BackupInfo)
    (local_path : String) (localSize r : Nat) (cancelled : Nat → Bool)
    (chunks : List ChunkEv) (attempts : Nat → Attempt) :
    (∀ (m : String) (localExists : Bool) (ls2 : Nat) (remoteSize : Option Nat),
        (resume_download storage info local_path localExists ls2 remoteSize
            cancelled chunks attempts).result
          ≠ DLResult.err (.other m))
    ∧ (localSize < r →
        ∀ e, (resumeLoop cancelled localSize 0 chunks).2 = some e →
          resume_download storage info local_path true localSize (some r) cancelled chunks attempts
            = ⟨.err (.transfer ("Resume download failed: " ++ errMsg e)),
                some (resumeLoop cancelled localSize 0 chunks).1, 1⟩)
    ∧ (localSize < r →
        (resumeLoop cancelled localSize 0 chunks).2 = none →
        (resumeLoop cancelled localSize 0 chunks).1 ≠ r →
          resume_download storage info local_path true localSize (some r) cancelled chunks attempts
            = ⟨.err (.transfer "Resume download failed: Resume download verification failed"),
                some (resumeLoop cancelled localSize 0 chunks).1, 1⟩) := by
  refine ⟨?_, ?_, ?_⟩
  · intro m localExists ls2 remoteSize
    cases localExists with
    | false =>
      show (download_backup storage info (some (basename local_path)) false 0
          remoteSize attempts).result ≠ DLResult.err (.other m)
      exact download_backup_no_raw _ _ _ _ _ _ _ m
    | true =>
      cases remoteSize with
      | none => simp [resume_download]
      | some r2 =>
        by_cases h1 : r2 ≤ ls2
        · by_cases h2 : ls2 = r2
          · simp [resume_download, h1, h2]
          · simp [resume_download, h1, h2]
        · rcases h3 : (resumeLoop cancelled ls2 0 chunks).2 with _ | e
          · by_cases h4 : (resumeLoop cancelled ls2 0 chunks).1 = r2
            · simp [resume_download, h1, h3, h4]
            · simp [resume_download, h1, h3, h4]
          · simp [resume_download, h1, h3]
  · intro hlt e he
    rw [resume_download, if_neg (by simp), if_neg (not_le.mpr hlt)]
    simp [he]
  · intro hlt h2 h3
    rw [resume_download, if_neg (by simp), if_neg (not_le.mpr hlt)]
    simp [h2, h3]

/-- Witness for C2 (amended): one failing chunk read on a concrete resume. -/
theorem resume_no_retry_witness :
    resume_download "store" recDb "pp" true 5 (some 10) (fun _ => false)
        [ChunkEv.fail "disk gone"] (fun _ => ⟨none, none⟩)
      = ⟨.err (.transfer ("Resume download failed: " ++ errMsg (PyErr.other "disk gone"))),
          some (resumeLoop (fun _ => false) 5 0 [ChunkEv.fail "disk gone"]).1, 1⟩ :=
  (resume_no_retry_wraps_errors "store" recDb "pp" 5 10 (fun _ => false)
      [ChunkEv.fail "disk gone"] (fun _ => ⟨none, none⟩)).2.1
    (by decide) (PyErr.other "disk gone") (by decide)

/-! ### Claim C9 -/

/-- Claim C9: an upload whose local source path does not exist raises
`TransferError` immediately — no progress tracker is ever constructed and
no remote operation (directory creation or file write) is performed,
whatever the environment would have done. -/
theorem upload_missing_local_file_spec (local_path remote_path : String)
    (localSize : Nat) (env : UploadEnv) :
    upload_backup local_path remote_path false localSize env
      = ⟨.err (.transfer ("Local file not found: " ++ local_path)), none, []⟩ :=
  rfl

end FrappeBR
